import Mathlib

/-!
Verification of the bash declaration encoder and validator of
terraform-provider-bash.

The development shallowly embeds the Go sources:

* `internal/bash/variables.go`: `variablesToBashDecls`, `bashQuoteString`,
  `validVariableName` and its character classifiers.
* `internal/bash/bash_script_drt.go`: the per-variable validation loop of
  `newBashScriptConfig` (embedded as `variableDiags` /
  `newBashScriptConfigDiags`), the type descriptors `listOfString` and
  `mapOfString`.
* `provider.go` (`Provider.ReadDataSource`): the computation of the `result`
  attribute, embedded as `readDataSourceResult`.

Terraform values (`tftypes.Value`) are embedded as the inductive `TfValue`,
carrying enough type information to give `val.Is(ty)` its meaning of type
equality.  Go maps are embedded as association lists in iteration order; a
`map[string]tftypes.Value` with a given iteration order is the corresponding
`List (String × TfValue)`.  Terraform numbers (`*big.Float`) are embedded as
rationals.
-/

namespace TfBash

/-- The single-quote character U+0027. -/
def sq : Char := Char.ofNat 39

/-! ## Bash quoting (`bashQuoteString`, variables.go line 96) -/

/-- Per-character replacement performed by
`strings.ReplaceAll(s, "'", "'\\''")` in `bashQuoteString`: every single
quote becomes the four characters quote, backslash, quote, quote, and every
other character is kept. -/
def bashEscapeChar (c : Char) : List Char :=
  if c = sq then [sq, '\\', sq, sq] else [c]

/-- Embedding of `bashQuoteString` (variables.go): wrap the replaced text in
single quotes. -/
def bashQuoteString (s : String) : String :=
  String.mk (sq :: (s.data.flatMap bashEscapeChar ++ [sq]))

/-! ## Shell single-quoting semantics (environment model)

Modelled from the POSIX shell quoting rules that the spec appeals to for the
round-trip property: outside quotes a backslash escapes the next character
and a single quote opens a quoted section; inside single quotes every
character except the closing quote stands for itself. -/

/-- Decoder mode: outside quotes, inside single quotes, or just after a
backslash outside quotes. -/
inductive ShMode : Type where
  | unq : ShMode
  | quo : ShMode
  | esc : ShMode
deriving DecidableEq

/-- One step of the shell word decoder: next mode and emitted characters. -/
def shellStep : ShMode → Char → ShMode × List Char
  | .unq, c =>
    if c = sq then (.quo, [])
    else if c = '\\' then (.esc, [])
    else (.unq, [c])
  | .quo, c => if c = sq then (.unq, []) else (.quo, [c])
  | .esc, c => (.unq, [c])

/-- Decode a shell word starting in mode `m`; fails on an unterminated
quoted section or a trailing backslash. -/
def shellDecodeFrom : ShMode → List Char → Option (List Char)
  | m, [] => match m with | .unq => some [] | .quo => none | .esc => none
  | m, c :: cs =>
    (shellDecodeFrom (shellStep m c).1 cs).map ((shellStep m c).2 ++ ·)

/-- Decode a whole shell word under quoting semantics. -/
def shellDecode (s : String) : Option String :=
  (shellDecodeFrom .unq s.data).map String.mk

/-! ## Variable names (`validVariableName`, variables.go lines 100-140) -/

/-- Embedding of `validVariableNameInitialCharacter`. -/
def validVariableNameInitialCharacter (c : Char) : Bool :=
  c = '_' || ('A' ≤ c && c ≤ 'Z') || ('a' ≤ c && c ≤ 'z')

/-- Embedding of `validVariableNameSubsequentCharacter`. -/
def validVariableNameSubsequentCharacter (c : Char) : Bool :=
  validVariableNameInitialCharacter c || ('0' ≤ c && c ≤ '9')

/-- Embedding of `validVariableName`: the first rune must be an initial
character and every later rune a subsequent character; the empty string is
invalid. -/
def validVariableName (s : String) : Bool :=
  match s.data with
  | [] => false
  | c :: rest =>
    validVariableNameInitialCharacter c &&
      rest.all validVariableNameSubsequentCharacter

/-- Direct transcription of the spec pattern `[A-Za-z_][A-Za-z0-9_]*`,
written independently of `validVariableName` for comparison. -/
def matchesIdentPattern (s : String) : Prop :=
  ∃ c rest, s.data = c :: rest ∧
    (('A' ≤ c ∧ c ≤ 'Z') ∨ ('a' ≤ c ∧ c ≤ 'z') ∨ c = '_') ∧
    ∀ d ∈ rest,
      ('A' ≤ d ∧ d ≤ 'Z') ∨ ('a' ≤ d ∧ d ≤ 'z') ∨ ('0' ≤ d ∧ d ≤ '9') ∨ d = '_'

/-! ## Go %q quoting (model of `strconv.Quote`, used via `fmt` `%q`) -/

/-- Hexadecimal digit characters used by `strconv.Quote`. -/
def hexDigitChar (n : ℕ) : Char :=
  if n < 10 then Char.ofNat (48 + n) else Char.ofNat (87 + n)

/-- Per-character escaping of Go `strconv.Quote` (reached through `fmt`
verb `%q`), modelled for the double quote, the backslash, the standard
control escapes, and other control characters; printable characters are
kept as-is. -/
def goEscapeChar (c : Char) : List Char :=
  if c = '"' then ['\\', '"']
  else if c = '\\' then ['\\', '\\']
  else if c = Char.ofNat 7 then ['\\', 'a']
  else if c = Char.ofNat 8 then ['\\', 'b']
  else if c = Char.ofNat 12 then ['\\', 'f']
  else if c = Char.ofNat 10 then ['\\', 'n']
  else if c = Char.ofNat 13 then ['\\', 'r']
  else if c = Char.ofNat 9 then ['\\', 't']
  else if c = Char.ofNat 11 then ['\\', 'v']
  else if c.toNat < 32 || c.toNat = 127 then
    ['\\', 'x', hexDigitChar (c.toNat / 16), hexDigitChar (c.toNat % 16)]
  else [c]

/-- Model of Go `fmt.Sprintf("%q", s)` for strings. -/
def goQuote (s : String) : String :=
  String.mk ('"' :: (s.data.flatMap goEscapeChar ++ ['"']))

/-! ## Number rendering (model of `big.Float.Text('f', -1)`)

Terraform numbers are `big.Float` values, i.e. dyadic rationals; their
minimal decimal rendering with format `f` is the exact finite decimal
expansion.  `numText` computes that expansion for a rational whose
denominator has no prime factors besides 2 and 5 (the only rationals a
`big.Float` can hold). -/

/-- Multiplicity of the factor `p` in `n`, driven by a structural fuel so
that the kernel can evaluate it. -/
def pCountAux : ℕ → ℕ → ℕ → ℕ
  | 0, _, _ => 0
  | fuel + 1, p, n =>
    if 2 ≤ p ∧ 0 < n ∧ n % p = 0 then pCountAux fuel p (n / p) + 1 else 0

/-- Multiplicity of the prime `p` in `n`. -/
def pCount (p n : ℕ) : ℕ := pCountAux n p n

/-- Left-pad a digit string with zeros to length `k`. -/
def padLeftZeros (s : String) (k : ℕ) : String :=
  String.mk (List.replicate (k - s.length) '0') ++ s

/-- Model of `f.Text('f', -1)` on the rational held by the `big.Float` `f`:
the exact decimal expansion, with no exponent and no trailing zeros. -/
def numText (q : ℚ) : String :=
  let sign : String := if q.num < 0 then "-" else ""
  let n : ℕ := q.num.natAbs
  let d : ℕ := q.den
  if d = 1 then sign ++ toString n
  else
    let k : ℕ := max (pCount 2 d) (pCount 5 d)
    let scaled : ℕ := n * 10 ^ k / d
    sign ++ toString (scaled / 10 ^ k) ++ "." ++
      padLeftZeros (toString (scaled % 10 ^ k)) k

/-- The rational 3.5, the spec's example of a fractional number. -/
def ratThreePointFive : ℚ := Rat.mk' 7 2 (by decide) (by decide)

/-! ## Terraform types and values (`tftypes` embedding) -/

/-- Embedding of `tftypes.Type` as far as this provider distinguishes
types. -/
inductive TfType : Type where
  | str : TfType
  | num : TfType
  | boolT : TfType
  | listT (elem : TfType) : TfType
  | setT (elem : TfType) : TfType
  | mapT (elem : TfType) : TfType
  | tupleT (elems : List TfType) : TfType
  | objectT (attrs : List (String × TfType)) : TfType
  | dynamic : TfType

/-- Embedding of `tftypes.Value`.  Collections carry their element type so
that `val.Is(ty)` can be interpreted as equality of types; maps and objects
are association lists in iteration order. -/
inductive TfValue : Type where
  | str (s : String) : TfValue
  | num (q : ℚ) : TfValue
  | boolV (b : Bool) : TfValue
  | nullV (ty : TfType) : TfValue
  | listV (elem : TfType) (elems : List TfValue) : TfValue
  | setV (elem : TfType) (elems : List TfValue) : TfValue
  | mapV (elem : TfType) (entries : List (String × TfValue)) : TfValue
  | tupleV (tys : List TfType) (elems : List TfValue) : TfValue
  | objectV (attrs : List (String × TfType))
      (entries : List (String × TfValue)) : TfValue

/-- Type of a value; `val.Is(ty)` in the Go sources is
`typeOf val = ty` here.  A null value carries its type. -/
def typeOf : TfValue → TfType
  | .str _ => .str
  | .num _ => .num
  | .boolV _ => .boolT
  | .nullV ty => ty
  | .listV e _ => .listT e
  | .setV e _ => .setT e
  | .mapV e _ => .mapT e
  | .tupleV tys _ => .tupleT tys
  | .objectV attrs _ => .objectT attrs

/-- The descriptor `listOfString` of bash_script_drt.go. -/
def listOfString : TfType := .listT .str

/-- The descriptor `mapOfString` of bash_script_drt.go. -/
def mapOfString : TfType := .mapT .str

/-- Test `ty = tftypes.String` (the only type equalities the program ever
computes are against four fixed descriptors, so they are embedded as four
pattern-matching tests). -/
def isStrType : TfType → Bool
  | .str => true
  | _ => false

/-- Test `ty = tftypes.Number`. -/
def isNumType : TfType → Bool
  | .num => true
  | _ => false

/-- Test `ty = listOfString`. -/
def isListOfStringType : TfType → Bool
  | .listT .str => true
  | _ => false

/-- Test `ty = mapOfString`. -/
def isMapOfStringType : TfType → Bool
  | .mapT .str => true
  | _ => false

/-- Model of `val.As(&s)` for a `string` destination: the held string, or
the zero value `""` when the value is not a non-null string (the Go call
sites ignore the returned error, leaving the destination untouched). -/
def asString : TfValue → String
  | .str s => s
  | _ => ""

/-- Model of `val.As(&f)` for a `big.Float` destination at the encoder call
site, where the error is ignored: the held rational, or the zero value 0. -/
def asNum : TfValue → ℚ
  | .num q => q
  | _ => 0

/-- Model of `val.As(&l)` for a `[]tftypes.Value` destination with the error
ignored. -/
def listElems : TfValue → List TfValue
  | .listV _ es => es
  | _ => []

/-- Model of `val.As(&m)` for a `map[string]tftypes.Value` destination with
the error ignored; the association list is in iteration order. -/
def mapEntries : TfValue → List (String × TfValue)
  | .mapV _ es => es
  | _ => []

/-! ## String ordering (model of `sort.Strings`)

Go compares strings byte-wise; for valid UTF-8 the byte-wise order agrees
with the code-point lexicographic order computed here. -/

/-- Lexicographic comparison of character lists by code point. -/
def charListLe : List Char → List Char → Bool
  | [], _ => true
  | _ :: _, [] => false
  | a :: as, b :: bs =>
    if a < b then true else if b < a then false else charListLe as bs

/-- String comparison matching Go `s <= t` on valid UTF-8. -/
def strLe (a b : String) : Bool := charListLe a.data b.data

/-- Model of `sort.Strings`: sort ascending. -/
def sortStrings (names : List String) : List String :=
  List.insertionSort (fun a b => strLe a b = true) names

/-! ## The encoder (`variablesToBashDecls`, variables.go lines 20-94) -/

/-- Body of the per-variable `switch` in `variablesToBashDecls`: the text
appended to the builder for one variable. -/
def bashDeclFor (name : String) (val : TfValue) : String :=
  if isStrType (typeOf val) then
    "declare -r " ++ name ++ "=" ++ bashQuoteString (asString val) ++ "\n"
  else if isNumType (typeOf val) then
    "declare -ri " ++ name ++ "=" ++ numText (asNum val) ++ "\n"
  else if isListOfStringType (typeOf val) then
    "declare -ra " ++ name ++ "=(" ++
      String.intercalate " "
        ((listElems val).map (fun ev => bashQuoteString (asString ev))) ++
      ")\n"
  else if isMapOfStringType (typeOf val) then
    "declare -rA " ++ name ++ "=(" ++
      String.intercalate " "
        ((mapEntries val).map
          (fun e => bashQuoteString e.1 ++ " " ++ bashQuoteString (asString e.2))) ++
      ")\n"
  else
    "# ERROR: Don\x27t know how to serialize " ++ goQuote name ++ " for bash\n"

/-- Look up a variable by name, as `vars[name]` on the Go map. -/
def lookupVar (vars : List (String × TfValue)) (name : String) : TfValue :=
  match vars.find? (fun p => p.1 = name) with
  | some p => p.2
  | none => .nullV .dynamic

/-- Embedding of `variablesToBashDecls`: empty input yields the empty
string; otherwise the names are collected, sorted with `sort.Strings`, and
each variable is rendered in turn. -/
def variablesToBashDecls (vars : List (String × TfValue)) : String :=
  if vars.isEmpty then ""
  else
    String.join
      ((sortStrings (vars.map Prod.fst)).map
        (fun name => bashDeclFor name (lookupVar vars name)))

/-! ## The validator (`newBashScriptConfig`, bash_script_drt.go lines 85-164) -/

/-- Severity of a `tfprotov5.Diagnostic`. -/
inductive Severity : Type where
  | error : Severity
  | warning : Severity
deriving DecidableEq

/-- Embedding of `tfprotov5.Diagnostic`; the attribute path is the list of
`AttributeName` steps. -/
structure Diagnostic : Type where
  severity : Severity
  summary : String
  detail : String
  attrPath : List String
deriving DecidableEq

/-- Diagnostic for an empty variable name (bash_script_drt.go line 87). -/
def invalidNameEmptyDiag (name : String) : Diagnostic :=
  ⟨.error, "Invalid variable name",
    "The empty string is not a valid Bash variable name.",
    ["variables", name]⟩

/-- Diagnostic for a name rejected by `validVariableName`
(bash_script_drt.go line 101). -/
def invalidNameDiag (name : String) : Diagnostic :=
  ⟨.error, "Invalid variable name",
    "Cannot use " ++ goQuote name ++ " as a Bash variable name.",
    ["variables", name]⟩

/-- Diagnostic for a number value that fails to decode
(bash_script_drt.go line 120); in this embedding only a null number reaches
it, and the cited library error text is modelled from the `tftypes` null
unmarshal error. -/
def numberDecodeFailDiag (name : String) : Diagnostic :=
  ⟨.error, "Invalid variable value",
    "Failed to decode " ++ goQuote name ++
      " as a number: unmarshaling null values is not supported.",
    ["variables", name]⟩

/-- Diagnostic for a fractional number (bash_script_drt.go line 134). -/
def floatDiag (name : String) (q : ℚ) : Diagnostic :=
  ⟨.error, "Invalid variable value",
    "Can\x27t use " ++ numText q ++ " as value of " ++ goQuote name ++
      ": Bash doesn\x27t support floating-point numbers.",
    ["variables", name]⟩

/-- Diagnostic for a value of unsupported type
(bash_script_drt.go line 151). -/
def unsupportedTypeDiag (name : String) : Diagnostic :=
  ⟨.error, "Invalid variable value",
    "Invalid value for Bash variable " ++ goQuote name ++
      ": Bash only supports strings, whole numbers, lists of strings, and maps of strings.",
    ["variables", name]⟩

/-- Body of the `for name, val := range ret.Variables` loop of
`newBashScriptConfig`: the diagnostics appended for one variable.  An
invalid name `continue`s before any value check; a number is accepted only
when integral (`f.IsInt()` is `q.den = 1` on the embedded rational); lists
and maps are accepted only at the exact types `listOfString` and
`mapOfString`; everything else produces the generic diagnostic. -/
def variableDiags (name : String) (val : TfValue) : List Diagnostic :=
  if name = "" then [invalidNameEmptyDiag name]
  else if validVariableName name = false then [invalidNameDiag name]
  else if isStrType (typeOf val) then []
  else if isNumType (typeOf val) then
    match val with
    | .num q => if q.den = 1 then [] else [floatDiag name q]
    | _ => [numberDecodeFailDiag name]
  else if isListOfStringType (typeOf val) then []
  else if isMapOfStringType (typeOf val) then []
  else [unsupportedTypeDiag name]

/-- Diagnostics of the variable-checking loop of `newBashScriptConfig`,
for a configuration that already decoded structurally (the earlier
unmarshal steps cannot fail once the input is an object of the schema
shape). -/
def newBashScriptConfigDiags (vars : List (String × TfValue)) : List Diagnostic :=
  vars.flatMap (fun p => variableDiags p.1 p.2)

/-- Embedding of the `result` attribute computed by
`Provider.ReadDataSource` (provider.go): when validation produced any
diagnostic no state is returned; otherwise the result is
`variablesToBashDecls` of the variables.  The source body is NOT merged in
(the merge is a TODO in the Go source), which is why the parameter is
unused. -/
def readDataSourceResult (_source : String)
    (vars : List (String × TfValue)) : Option String :=
  if (newBashScriptConfigDiags vars).isEmpty then
    some (variablesToBashDecls vars)
  else none

/-! ## Helper lemmas -/

theorem decode_quo_close (rest : List Char) :
    shellDecodeFrom .quo (sq :: rest) = shellDecodeFrom .unq rest := by
  cases hh : shellDecodeFrom ShMode.unq rest <;>
    simp [shellDecodeFrom, shellStep, hh]

theorem decode_quo_ltr (c : Char) (h : c ≠ sq) (rest : List Char) :
    shellDecodeFrom .quo (c :: rest) =
      (shellDecodeFrom .quo rest).map (fun x => c :: x) := by
  cases hh : shellDecodeFrom ShMode.quo rest <;>
    simp [shellDecodeFrom, shellStep, h, hh]

theorem decode_quo_quadruple (rest : List Char) :
    shellDecodeFrom .quo (sq :: '\\' :: sq :: sq :: rest) =
      (shellDecodeFrom .quo rest).map (fun x => sq :: x) := by
  have hbs : ('\\' : Char) ≠ sq := by decide
  cases hh : shellDecodeFrom ShMode.quo rest <;>
    simp [shellDecodeFrom, shellStep, hbs, hh]

theorem quoted_decode (l k : List Char) :
    shellDecodeFrom .quo (l.flatMap bashEscapeChar ++ sq :: k) =
      (shellDecodeFrom .unq k).map (l ++ ·) := by
  induction l with
  | nil =>
    rw [List.flatMap_nil, List.nil_append, decode_quo_close]
    cases shellDecodeFrom ShMode.unq k <;> simp
  | cons c l ih =>
    by_cases hc : c = sq
    · subst hc
      have he : bashEscapeChar sq = [sq, '\\', sq, sq] := rfl
      rw [List.flatMap_cons, he, List.append_assoc]
      rw [show ([sq, '\\', sq, sq] : List Char) ++ (l.flatMap bashEscapeChar ++ sq :: k) =
            sq :: '\\' :: sq :: sq :: (l.flatMap bashEscapeChar ++ sq :: k) from rfl]
      rw [decode_quo_quadruple, ih]
      cases shellDecodeFrom ShMode.unq k <;> simp
    · have he : bashEscapeChar c = [c] := by simp [bashEscapeChar, hc]
      rw [List.flatMap_cons, he, List.append_assoc]
      rw [show ([c] : List Char) ++ (l.flatMap bashEscapeChar ++ sq :: k) =
            c :: (l.flatMap bashEscapeChar ++ sq :: k) from rfl]
      rw [decode_quo_ltr c hc, ih]
      cases shellDecodeFrom ShMode.unq k <;> simp

theorem mk_data (s : String) : String.mk s.data = s := by
  cases s
  rfl

theorem charListLe_total (as bs : List Char) :
    charListLe as bs = true ∨ charListLe bs as = true := by
  induction as generalizing bs with
  | nil => left; rfl
  | cons a as ih =>
    cases bs with
    | nil => right; rfl
    | cons b bs =>
      rcases lt_trichotomy a b with h | h | h
      · left; simp [charListLe, h]
      · subst h
        rcases ih bs with h2 | h2
        · left; simp [charListLe, lt_irrefl, h2]
        · right; simp [charListLe, lt_irrefl, h2]
      · right; simp [charListLe, h]

theorem charListLe_trans (as bs cs : List Char)
    (h1 : charListLe as bs = true) (h2 : charListLe bs cs = true) :
    charListLe as cs = true := by
  induction as generalizing bs cs with
  | nil => rfl
  | cons a as ih =>
    cases bs with
    | nil => simp [charListLe] at h1
    | cons b bs =>
      cases cs with
      | nil => simp [charListLe] at h2
      | cons c cs =>
        rcases lt_trichotomy a b with hab | hab | hab
        · rcases lt_trichotomy b c with hbc | hbc | hbc
          · simp [charListLe, lt_trans hab hbc]
          · subst hbc; simp [charListLe, hab]
          · simp [charListLe, hbc, lt_asymm hbc] at h2
        · subst hab
          simp only [charListLe, lt_irrefl, if_false] at h1
          rcases lt_trichotomy a c with hac | hac | hac
          · simp [charListLe, hac]
          · subst hac
            simp only [charListLe, lt_irrefl, if_false] at h2 ⊢
            exact ih bs cs h1 h2
          · simp [charListLe, hac, lt_asymm hac] at h2
        · simp [charListLe, hab, lt_asymm hab] at h1

theorem charListLe_antisymm (as bs : List Char)
    (h1 : charListLe as bs = true) (h2 : charListLe bs as = true) : as = bs := by
  induction as generalizing bs with
  | nil =>
    cases bs with
    | nil => rfl
    | cons b bs => simp [charListLe] at h2
  | cons a as ih =>
    cases bs with
    | nil => simp [charListLe] at h1
    | cons b bs =>
      rcases lt_trichotomy a b with h | h | h
      · simp [charListLe, h, lt_asymm h] at h2
      · subst h
        simp only [charListLe, lt_irrefl, if_false] at h1 h2
        rw [ih bs h1 h2]
      · simp [charListLe, h, lt_asymm h] at h1

instance : IsTotal String (fun a b => strLe a b = true) :=
  ⟨fun a b => charListLe_total a.data b.data⟩

instance : IsTrans String (fun a b => strLe a b = true) :=
  ⟨fun a b c h1 h2 => charListLe_trans a.data b.data c.data h1 h2⟩

instance : IsAntisymm String (fun a b => strLe a b = true) :=
  ⟨fun a b h1 h2 => String.ext (charListLe_antisymm a.data b.data h1 h2)⟩

theorem lookupVar_perm {vars1 vars2 : List (String × TfValue)}
    (hperm : vars1.Perm vars2) (hnodup : (vars1.map Prod.fst).Nodup)
    (n : String) : lookupVar vars1 n = lookupVar vars2 n := by
  unfold lookupVar
  cases h1 : vars1.find? (fun p => p.1 = n) with
  | none =>
    have h2 : vars2.find? (fun p => p.1 = n) = none := by
      rw [List.find?_eq_none] at h1 ⊢
      intro x hx
      exact h1 x (hperm.mem_iff.mpr hx)
    rw [h2]
  | some p =>
    have hp_mem : p ∈ vars1 := List.mem_of_find?_eq_some h1
    have hp_pred := List.find?_some h1
    have hsome : (vars2.find? (fun p => p.1 = n)).isSome = true :=
      List.find?_isSome.mpr ⟨p, hperm.mem_iff.mp hp_mem, hp_pred⟩
    obtain ⟨q, hq⟩ := Option.isSome_iff_exists.mp hsome
    have hq_mem : q ∈ vars2 := List.mem_of_find?_eq_some hq
    have hq_pred := List.find?_some hq
    have hkeys : p.1 = q.1 := by
      have hp : p.1 = n := of_decide_eq_true hp_pred
      have hqn : q.1 = n := of_decide_eq_true hq_pred
      rw [hp, hqn]
    have hpq : p = q :=
      List.inj_on_of_nodup_map hnodup hp_mem (hperm.mem_iff.mpr hq_mem) hkeys
    rw [hq, hpq]

/-! ## Claims -/

/-- Claim C1: `bashQuoteString` wraps its argument in single quotes after
replacing each embedded single quote by the four characters
quote-backslash-quote-quote, and decoding the result under shell
single-quoting semantics yields exactly the original string (for every
string, including the empty string and strings containing single quotes,
newlines, spaces, and shell metacharacters). -/
theorem claim_C1 (s : String) : shellDecode (bashQuoteString s) = some s := by
  unfold shellDecode bashQuoteString
  have h1 : (String.mk (sq :: (s.data.flatMap bashEscapeChar ++ [sq]))).data =
      sq :: (s.data.flatMap bashEscapeChar ++ [sq]) := rfl
  rw [h1]
  have h2 : shellDecodeFrom .unq (sq :: (s.data.flatMap bashEscapeChar ++ [sq])) =
      shellDecodeFrom .quo (s.data.flatMap bashEscapeChar ++ [sq]) := by
    cases hh : shellDecodeFrom ShMode.quo (s.data.flatMap bashEscapeChar ++ [sq]) <;>
      simp [shellDecodeFrom, shellStep, hh]
  rw [h2]
  have h3 := quoted_decode s.data []
  rw [show (s.data.flatMap bashEscapeChar ++ [sq] : List Char) =
        s.data.flatMap bashEscapeChar ++ sq :: [] from rfl]
  rw [h3]
  simp [shellDecodeFrom, mk_data]

/-- Claim C2 is false of the code: `ReadDataSource` never merges the
rendered declarations with the source body (the merge is a TODO in the Go
source), so for a diagnostics-free configuration the result is the
declarations alone.  At the failing input with body
`#!/bin/bash\necho hi\n` and one string variable, the result omits the body
entirely instead of hoisting the interpreter line. -/
theorem claim_C2 :
    readDataSourceResult "#!/bin/bash\necho hi\n" [("greeting", .str "Hello")] =
      some "declare -r greeting=\x27Hello\x27\n" ∧
    readDataSourceResult "#!/bin/bash\necho hi\n" [("greeting", .str "Hello")] ≠
      some "#!/bin/bash\ndeclare -r greeting=\x27Hello\x27\necho hi\n" := by
  constructor
  · decide
  · decide

/-- Claim C3 (amended): rendering is deterministic with respect to the
iteration order of the OUTER variable map (the names are sorted before
rendering), for variable sets with no duplicate names; map-of-strings
entries, however, are emitted in the inner map's iteration order, which the
code does not sort (see the counterexample). -/
theorem claim_C3 (vars1 vars2 : List (String × TfValue))
    (hperm : vars1.Perm vars2) (hnodup : (vars1.map Prod.fst).Nodup) :
    variablesToBashDecls vars1 = variablesToBashDecls vars2 := by
  have hnames : (vars1.map Prod.fst).Perm (vars2.map Prod.fst) := hperm.map Prod.fst
  have hsortperm :
      (sortStrings (vars1.map Prod.fst)).Perm (sortStrings (vars2.map Prod.fst)) :=
    ((List.perm_insertionSort _ _).trans hnames).trans
      (List.perm_insertionSort _ _).symm
  have hsorteq : sortStrings (vars1.map Prod.fst) = sortStrings (vars2.map Prod.fst) :=
    List.eq_of_perm_of_sorted hsortperm
      (List.sorted_insertionSort _ _) (List.sorted_insertionSort _ _)
  have hemp : vars1.isEmpty = vars2.isEmpty := by
    cases vars1 with
    | nil => rw [List.Perm.eq_nil hperm.symm]
    | cons a l =>
      cases vars2 with
      | nil => exact absurd (List.Perm.eq_nil hperm) (by simp)
      | cons b m => rfl
  unfold variablesToBashDecls
  rw [hemp, hsorteq]
  simp only [lookupVar_perm hperm hnodup]

/-- Claim C3, witness for the amended statement at a concrete input. -/
theorem claim_C3_witness :
    variablesToBashDecls [("b", .num (3 : ℚ)), ("a", .str "x")] =
      variablesToBashDecls [("a", .str "x"), ("b", .num (3 : ℚ))] :=
  claim_C3 _ _ (List.Perm.swap _ _ _) (by decide)

/-- Claim C3, counterexample to the claim as stated: a map-of-strings value
with the same content presented in two iteration orders renders to two
different byte strings, because the encoder iterates the inner Go map
without sorting its keys. -/
theorem claim_C3_counterexample :
    variablesToBashDecls
        [("ids", .mapV .str [("a", .str "i-123"), ("b", .str "i-456")])] ≠
      variablesToBashDecls
        [("ids", .mapV .str [("b", .str "i-456"), ("a", .str "i-123")])] ∧
    [("b", TfValue.str "i-456"), ("a", TfValue.str "i-123")] =
      [("a", TfValue.str "i-123"), ("b", TfValue.str "i-456")].reverse :=
  ⟨by decide, rfl⟩

/-- Claim C4: the encoder renders each supported shape to exactly the
documented declaration line, and iterates variables in lexicographic name
order: `{greeting: "Hello"}` gives `declare -r greeting='Hello'`,
`{num: 3}` gives `declare -ri num=3` with no fractional part or exponent,
`{names: ["Medhi","Aurynn"]}` gives
`declare -ra names=('Medhi' 'Aurynn')` with elements space-separated in
list order; a set containing all three renders them sorted by name. -/
theorem claim_C4 :
    variablesToBashDecls [("greeting", .str "Hello")] =
      "declare -r greeting=\x27Hello\x27\n" ∧
    variablesToBashDecls [("num", .num (3 : ℚ))] = "declare -ri num=3\n" ∧
    variablesToBashDecls [("names", .listV .str [.str "Medhi", .str "Aurynn"])] =
      "declare -ra names=(\x27Medhi\x27 \x27Aurynn\x27)\n" ∧
    variablesToBashDecls
        [("num", .num (3 : ℚ)),
         ("greeting", .str "Hello"),
         ("names", .listV .str [.str "Medhi", .str "Aurynn"])] =
      "declare -r greeting=\x27Hello\x27\n" ++
        "declare -ra names=(\x27Medhi\x27 \x27Aurynn\x27)\n" ++
        "declare -ri num=3\n" := by
  refine ⟨by decide, by decide, by decide, by decide⟩

/-- Claim C8: the empty variable set renders to the empty declarations
text; but the result does NOT equal the source body — the merge step is a
TODO in the Go source, so the result is the empty declarations text
instead of the body. -/
theorem claim_C8 :
    variablesToBashDecls [] = "" ∧
    readDataSourceResult "echo hi" [] = some "" ∧
    readDataSourceResult "echo hi" [] ≠ some "echo hi" := by
  refine ⟨rfl, by decide, by decide⟩

theorem initialChar_iff (c : Char) :
    validVariableNameInitialCharacter c = true ↔
      ('A' ≤ c ∧ c ≤ 'Z') ∨ ('a' ≤ c ∧ c ≤ 'z') ∨ c = '_' := by
  unfold validVariableNameInitialCharacter
  simp only [Bool.or_eq_true, Bool.and_eq_true, decide_eq_true_eq]
  tauto

theorem subseqChar_iff (c : Char) :
    validVariableNameSubsequentCharacter c = true ↔
      ('A' ≤ c ∧ c ≤ 'Z') ∨ ('a' ≤ c ∧ c ≤ 'z') ∨
        ('0' ≤ c ∧ c ≤ '9') ∨ c = '_' := by
  unfold validVariableNameSubsequentCharacter validVariableNameInitialCharacter
  simp only [Bool.or_eq_true, Bool.and_eq_true, decide_eq_true_eq]
  tauto

theorem validVariableName_iff (s : String) :
    validVariableName s = true ↔ matchesIdentPattern s := by
  cases s with
  | mk l =>
    cases l with
    | nil =>
      constructor
      · intro h; cases h
      · rintro ⟨c, rest, hcr, -, -⟩; cases hcr
    | cons c rest =>
      have hl : validVariableName (String.mk (c :: rest)) =
          (validVariableNameInitialCharacter c &&
            rest.all validVariableNameSubsequentCharacter) := rfl
      rw [hl]
      constructor
      · intro h
        rw [Bool.and_eq_true] at h
        refine ⟨c, rest, rfl, (initialChar_iff c).mp h.1, ?_⟩
        intro d hdm
        exact (subseqChar_iff d).mp (List.all_eq_true.mp h.2 d hdm)
      · rintro ⟨c2, rest2, heq, hinit, hrest⟩
        have heq2 : c :: rest = c2 :: rest2 := heq
        cases heq2
        rw [Bool.and_eq_true]
        exact ⟨(initialChar_iff c).mpr hinit,
          List.all_eq_true.mpr (fun d hdm => (subseqChar_iff d).mpr (hrest d hdm))⟩

theorem validVariableName_ne_empty {s : String}
    (h : validVariableName s = true) : s ≠ "" := by
  intro he
  subst he
  exact absurd h (by decide)

theorem variableDiags_value (name : String) (val : TfValue)
    (hne : name ≠ "") (hv : validVariableName name = true) :
    variableDiags name val =
      (if isStrType (typeOf val) then []
       else if isNumType (typeOf val) then
         match val with
         | .num q => if q.den = 1 then [] else [floatDiag name q]
         | _ => [numberDecodeFailDiag name]
       else if isListOfStringType (typeOf val) then []
       else if isMapOfStringType (typeOf val) then []
       else [unsupportedTypeDiag name]) := by
  unfold variableDiags
  rw [if_neg hne, if_neg (by simp [hv])]

theorem valueDiags_summary (name : String) (val : TfValue)
    (hne : name ≠ "") (hv : validVariableName name = true) :
    ∀ d ∈ variableDiags name val, d.summary = "Invalid variable value" := by
  intro d hd
  rw [variableDiags_value name val hne hv] at hd
  repeat' split at hd
  all_goals simp_all [floatDiag, numberDecodeFailDiag, unsupportedTypeDiag]

/-- Claim C5: the validator emits the empty-name diagnostic exactly when a
variable's name is empty, and the invalid-name diagnostic (citing the
offending name) exactly when the non-empty name fails the identifier
pattern `[A-Za-z_][A-Za-z0-9_]*` (`validVariableName` decides exactly that
pattern); names matching the pattern receive no name diagnostic. -/
theorem claim_C5 (name : String) (val : TfValue) :
    (validVariableName name = true ↔ matchesIdentPattern name) ∧
    (name = "" → variableDiags name val = [invalidNameEmptyDiag name]) ∧
    (name ≠ "" → ¬ matchesIdentPattern name →
      variableDiags name val = [invalidNameDiag name]) ∧
    (matchesIdentPattern name →
      (variableDiags name val).all
        (fun d => d.summary != "Invalid variable name") = true) := by
  refine ⟨validVariableName_iff name, ?_, ?_, ?_⟩
  · intro h
    unfold variableDiags
    rw [if_pos h]
  · intro hne hnm
    have hv : validVariableName name = false := by
      cases h : validVariableName name with
      | false => rfl
      | true => exact absurd ((validVariableName_iff name).mp h) hnm
    unfold variableDiags
    rw [if_neg hne, if_pos hv]
  · intro hm
    have hv : validVariableName name = true := (validVariableName_iff name).mpr hm
    have hne : name ≠ "" := validVariableName_ne_empty hv
    rw [List.all_eq_true]
    intro d hd
    rw [show d.summary = "Invalid variable value" from
      valueDiags_summary name val hne hv d hd]
    decide

/-- Claim C5, witness: `""` and `"1abc"` each get exactly one invalid-name
diagnostic; `"_ok"` and `"a1"` get none. -/
theorem claim_C5_witness :
    (variableDiags "" (.str "x") = [invalidNameEmptyDiag ""]) ∧
    (variableDiags "1abc" (.str "x") = [invalidNameDiag "1abc"]) ∧
    ((variableDiags "_ok" (.str "x")).all
      (fun d => d.summary != "Invalid variable name") = true) ∧
    ((variableDiags "a1" (.str "x")).all
      (fun d => d.summary != "Invalid variable name") = true) :=
  ⟨(claim_C5 "" (.str "x")).2.1 rfl,
   (claim_C5 "1abc" (.str "x")).2.2.1 (by decide)
     (fun hm => absurd ((validVariableName_iff "1abc").mpr hm) (by decide)),
   (claim_C5 "_ok" (.str "x")).2.2.2
     ((validVariableName_iff "_ok").mp (by decide)),
   (claim_C5 "a1" (.str "x")).2.2.2
     ((validVariableName_iff "a1").mp (by decide))⟩

/-- Claim C6: a variable with a fractional number value gets exactly one
error diagnostic; its detail cites the decimal value and the variable name;
the request produces no result; an integral number produces no such
diagnostic. -/
theorem claim_C6 (name : String) (q : ℚ) (src : String)
    (hname : validVariableName name = true) (hfrac : q.den ≠ 1) :
    variableDiags name (.num q) = [floatDiag name q] ∧
    (floatDiag name q).detail =
      "Can\x27t use " ++ numText q ++ " as value of " ++ goQuote name ++
        ": Bash doesn\x27t support floating-point numbers." ∧
    readDataSourceResult src [(name, .num q)] = none ∧
    (∀ n : ℤ, variableDiags name (.num (n : ℚ)) = []) := by
  have hne : name ≠ "" := validVariableName_ne_empty hname
  have h1 : variableDiags name (.num q) = [floatDiag name q] := by
    rw [variableDiags_value name (.num q) hne hname]
    have hs : isStrType (typeOf (.num q)) = false := rfl
    have hn : isNumType (typeOf (.num q)) = true := rfl
    rw [if_neg (by simp [hs]), if_pos hn]
    exact if_neg hfrac
  refine ⟨h1, rfl, ?_, ?_⟩
  · unfold readDataSourceResult newBashScriptConfigDiags
    rw [if_neg ?_]
    rw [List.flatMap_cons, List.flatMap_nil]
    simp [h1]
  · intro n
    rw [variableDiags_value name (.num (n : ℚ)) hne hname]
    have hs : isStrType (typeOf (.num (n : ℚ))) = false := rfl
    have hn : isNumType (typeOf (.num (n : ℚ))) = true := rfl
    rw [if_neg (by simp [hs]), if_pos hn]
    exact if_pos (Rat.den_intCast n)

/-- Claim C6, witness at the number 3.5 and variable `num`. -/
theorem claim_C6_witness :
    variableDiags "num" (.num ratThreePointFive) =
      [floatDiag "num" ratThreePointFive] ∧
    readDataSourceResult "echo hi" [("num", .num ratThreePointFive)] = none :=
  ⟨(claim_C6 "num" ratThreePointFive "echo hi" (by decide) (by decide)).1,
   (claim_C6 "num" ratThreePointFive "echo hi" (by decide) (by decide)).2.2.1⟩

/-- Claim C7: a list value is accepted only at type list-of-string and a
map value only at type map-of-string; a list or map whose element type is
not string is rejected with the single generic unsupported-type diagnostic
(not decomposed element by element), and every value whose type is none of
the four supported ones gets that same single generic diagnostic naming
the variable. -/
theorem claim_C7 (name : String) (val : TfValue)
    (hname : validVariableName name = true) :
    (∀ es, variableDiags name (.listV .str es) = []) ∧
    (∀ es, variableDiags name (.mapV .str es) = []) ∧
    (∀ ety es, ety ≠ TfType.str →
      variableDiags name (.listV ety es) = [unsupportedTypeDiag name]) ∧
    (∀ ety es, ety ≠ TfType.str →
      variableDiags name (.mapV ety es) = [unsupportedTypeDiag name]) ∧
    (isStrType (typeOf val) = false → isNumType (typeOf val) = false →
      isListOfStringType (typeOf val) = false →
      isMapOfStringType (typeOf val) = false →
      variableDiags name val = [unsupportedTypeDiag name]) := by
  have hne : name ≠ "" := validVariableName_ne_empty hname
  refine ⟨?_, ?_, ?_, ?_, ?_⟩
  · intro es
    rw [variableDiags_value name (.listV .str es) hne hname]
    rfl
  · intro es
    rw [variableDiags_value name (.mapV .str es) hne hname]
    rfl
  · intro ety es hety
    rw [variableDiags_value name (.listV ety es) hne hname]
    have hs : isStrType (typeOf (.listV ety es)) = false := rfl
    have hn : isNumType (typeOf (.listV ety es)) = false := rfl
    have hls : isListOfStringType (typeOf (.listV ety es)) = false := by
      cases ety <;> simp_all [isListOfStringType, typeOf]
    have hms : isMapOfStringType (typeOf (.listV ety es)) = false := rfl
    rw [if_neg (by simp [hs]), if_neg (by simp [hn]),
      if_neg (by simp [hls]), if_neg (by simp [hms])]
  · intro ety es hety
    rw [variableDiags_value name (.mapV ety es) hne hname]
    have hs : isStrType (typeOf (.mapV ety es)) = false := rfl
    have hn : isNumType (typeOf (.mapV ety es)) = false := rfl
    have hls : isListOfStringType (typeOf (.mapV ety es)) = false := rfl
    have hms : isMapOfStringType (typeOf (.mapV ety es)) = false := by
      cases ety <;> simp_all [isMapOfStringType, typeOf]
    rw [if_neg (by simp [hs]), if_neg (by simp [hn]),
      if_neg (by simp [hls]), if_neg (by simp [hms])]
  · intro h1 h2 h3 h4
    rw [variableDiags_value name val hne hname]
    rw [if_neg (by simp [h1]), if_neg (by simp [h2]),
      if_neg (by simp [h3]), if_neg (by simp [h4])]

/-- Claim C7, witness: a list of strings and a map of strings pass; a list
of numbers, a map of numbers, a boolean, an untyped null and a nested
object each get the single generic diagnostic. -/
theorem claim_C7_witness :
    (variableDiags "x" (.listV .str [.str "a"]) = []) ∧
    (variableDiags "x" (.mapV .str [("k", .str "v")]) = []) ∧
    (variableDiags "x" (.listV .num [.num (1 : ℚ)]) = [unsupportedTypeDiag "x"]) ∧
    (variableDiags "x" (.mapV .num []) = [unsupportedTypeDiag "x"]) ∧
    (variableDiags "x" (.boolV true) = [unsupportedTypeDiag "x"]) ∧
    (variableDiags "x" (.nullV .dynamic) = [unsupportedTypeDiag "x"]) ∧
    (variableDiags "x" (.objectV [("a", .str)] [("a", .str "v")]) =
      [unsupportedTypeDiag "x"]) :=
  ⟨(claim_C7 "x" (.boolV true) (by decide)).1 [.str "a"],
   (claim_C7 "x" (.boolV true) (by decide)).2.1 [("k", .str "v")],
   (claim_C7 "x" (.boolV true) (by decide)).2.2.1 .num [.num (1 : ℚ)]
     (fun h => TfType.noConfusion h),
   (claim_C7 "x" (.boolV true) (by decide)).2.2.2.1 .num []
     (fun h => TfType.noConfusion h),
   (claim_C7 "x" (.boolV true) (by decide)).2.2.2.2 rfl rfl rfl rfl,
   (claim_C7 "x" (.nullV .dynamic) (by decide)).2.2.2.2 rfl rfl rfl rfl,
   (claim_C7 "x" (.objectV [("a", .str)] [("a", .str "v")]) (by decide)).2.2.2.2
     rfl rfl rfl rfl⟩

/-- Claim C9: a value of unsupported shape reaching the encoder does not
make it fail: it renders as a comment-form error marker line naming the
variable, and rendering continues with the remaining variables (shown
concretely for a set whose middle variable is unsupported). -/
theorem claim_C9 (name : String) (val : TfValue)
    (h1 : isStrType (typeOf val) = false) (h2 : isNumType (typeOf val) = false)
    (h3 : isListOfStringType (typeOf val) = false)
    (h4 : isMapOfStringType (typeOf val) = false) :
    bashDeclFor name val =
      "# ERROR: Don\x27t know how to serialize " ++ goQuote name ++ " for bash\n" ∧
    variablesToBashDecls
        [("a", .str "x"), ("bad", .boolV true), ("c", .num (3 : ℚ))] =
      "declare -r a=\x27x\x27\n" ++
        "# ERROR: Don\x27t know how to serialize \"bad\" for bash\n" ++
        "declare -ri c=3\n" := by
  constructor
  · unfold bashDeclFor
    rw [if_neg (by simp [h1]), if_neg (by simp [h2]),
      if_neg (by simp [h3]), if_neg (by simp [h4])]
  · decide

/-- Claim C9, witness at a boolean value. -/
theorem claim_C9_witness :
    bashDeclFor "bad" (.boolV true) =
      "# ERROR: Don\x27t know how to serialize " ++ goQuote "bad" ++ " for bash\n" ∧
    variablesToBashDecls
        [("a", .str "x"), ("bad", .boolV true), ("c", .num (3 : ℚ))] =
      "declare -r a=\x27x\x27\n" ++
        "# ERROR: Don\x27t know how to serialize \"bad\" for bash\n" ++
        "declare -ri c=3\n" :=
  claim_C9 "bad" (.boolV true) rfl rfl rfl rfl

/-- Claim C10: validation emits at most one diagnostic per variable, and a
variable whose name fails the check is skipped before any value check, so
all its diagnostics (exactly the one) are name diagnostics. -/
theorem claim_C10 (name : String) (val : TfValue) :
    (variableDiags name val).length ≤ 1 ∧
    (validVariableName name = false →
      (variableDiags name val).all
        (fun d => d.summary == "Invalid variable name") = true) := by
  constructor
  · unfold variableDiags
    repeat' split
    all_goals simp
  · intro hv
    rw [List.all_eq_true]
    intro d hd
    unfold variableDiags at hd
    by_cases hne : name = ""
    · rw [if_pos hne] at hd
      simp only [List.mem_singleton] at hd
      subst hd
      rfl
    · rw [if_neg hne, if_pos hv] at hd
      simp only [List.mem_singleton] at hd
      subst hd
      rfl

/-- Claim C10, witness at an invalid name carrying a would-be-invalid
value: only the name diagnostic is emitted. -/
theorem claim_C10_witness :
    (variableDiags "1abc" (.num ratThreePointFive)).length ≤ 1 ∧
    (variableDiags "1abc" (.num ratThreePointFive)).all
      (fun d => d.summary == "Invalid variable name") = true :=
  ⟨(claim_C10 "1abc" (.num ratThreePointFive)).1,
   (claim_C10 "1abc" (.num ratThreePointFive)).2 (by decide)⟩

end TfBash
